import Mathlib

/-!
Verification of the send-flow state machine, amount/recipient validation and
transaction-submission pipeline of the `solace` terminal wallet
(`src/main.rs`).  The Rust code is shallowly embedded: pure helpers become
Lean functions; the `f64` arithmetic of the amount conversion is modelled
exactly (IEEE binary64 values as rationals with round-to-nearest-even); the
RPC client is an oracle supplied as a parameter, indexed by a call counter so
that distinct calls are distinguishable.
-/

set_option maxRecDepth 100000
set_option exponentiation.threshold 2000
set_option allowUnsafeReducibility true
attribute [local semireducible] Rat.mul Rat.inv Rat.add Rat.sub Rat.ofScientific

deriving instance DecidableEq for Except

/-! ## Exact model of IEEE binary64 (`f64`) arithmetic -/

/-- Number of binary digits of a natural number (0 for 0), fuel-driven so that
it reduces in the kernel. -/
def bitlenAux : Nat → Nat → Nat
  | 0, _ => 0
  | fuel + 1, n => if n = 0 then 0 else bitlenAux fuel (n / 2) + 1

/-- Number of binary digits of `n`. -/
def bitlen (n : Nat) : Nat := bitlenAux n n

/-- The rational `2 ^ e` for an integer exponent. -/
def pow2z (e : Int) : ℚ :=
  if 0 ≤ e then ((2 ^ e.toNat : Nat) : ℚ) else (1 : ℚ) / ((2 ^ (-e).toNat : Nat) : ℚ)

/-- Floor of a rational as an integer (denominator is always positive). -/
def ratFloor (q : ℚ) : Int := Int.fdiv q.num q.den

/-- Truncation of a rational toward zero (the semantics of Rust's
float-to-integer `as` cast before saturation). -/
def ratTrunc (q : ℚ) : Int := if q < 0 then -ratFloor (-q) else ratFloor q

/-- Round a rational to the nearest integer, ties to even. -/
def roundHalfEven (q : ℚ) : Int :=
  let f := ratFloor q
  let r := q - (f : ℚ)
  if r < 1 / 2 then f
  else if 1 / 2 < r then f + 1
  else if f % 2 = 0 then f else f + 1

/-- An IEEE binary64 value: a finite value (an exactly representable
rational), an infinity with its sign, or NaN. -/
inductive F64 where
  | finite (q : ℚ)
  | inf (isPos : Bool)
  | nan
deriving DecidableEq, Repr

/-- Round a positive rational to binary64 precision with unbounded exponent
range above (subnormals are handled; overflow is detected by the caller). -/
def roundF64Pos (a : ℚ) : ℚ :=
  let bn := bitlen a.num.natAbs
  let bd := bitlen a.den
  let cand : Int := (bn : Int) - (bd : Int)
  let e : Int := if pow2z cand ≤ a then cand else cand - 1
  let prec : Int := max (e - 52) (-1074)
  let m : Int := roundHalfEven (a / pow2z prec)
  (m : ℚ) * pow2z prec

/-- Round an arbitrary rational to the nearest binary64 value
(round-to-nearest, ties-to-even, overflowing to infinity). -/
def roundF64 (q : ℚ) : F64 :=
  if q = 0 then F64.finite 0
  else
    let v := roundF64Pos |q|
    if pow2z 1024 ≤ v then F64.inf (decide (0 < q))
    else F64.finite (if q < 0 then -v else v)

/-- IEEE binary64 multiplication on the model. -/
def F64.mul : F64 → F64 → F64
  | F64.nan, _ => F64.nan
  | _, F64.nan => F64.nan
  | F64.inf a, F64.inf b => F64.inf (a == b)
  | F64.inf a, F64.finite q =>
      if q = 0 then F64.nan else F64.inf (a == decide (0 < q))
  | F64.finite q, F64.inf a =>
      if q = 0 then F64.nan else F64.inf (a == decide (0 < q))
  | F64.finite a, F64.finite b => roundF64 (a * b)

/-- IEEE binary64 division on the model. -/
def F64.div : F64 → F64 → F64
  | F64.nan, _ => F64.nan
  | _, F64.nan => F64.nan
  | F64.inf _, F64.inf _ => F64.nan
  | F64.inf a, F64.finite q => F64.inf (a == decide (0 ≤ q))
  | F64.finite _, F64.inf _ => F64.finite 0
  | F64.finite a, F64.finite b =>
      if b = 0 then (if a = 0 then F64.nan else F64.inf (decide (0 < a)))
      else roundF64 (a / b)

/-- Rust's saturating cast `as u64` from `f64`: truncate toward zero, clamp
to `[0, 2^64 - 1]`, NaN maps to 0. -/
def f64ToU64 : F64 → Nat
  | F64.nan => 0
  | F64.inf true => 2 ^ 64 - 1
  | F64.inf false => 0
  | F64.finite q =>
      let t := ratTrunc q
      if t < 0 then 0 else if (2 : Int) ^ 64 ≤ t then 2 ^ 64 - 1 else t.toNat

/-- The conversion `n as f64` for `n : u64`. -/
def natToF64 (n : Nat) : F64 := roundF64 (n : ℚ)

/-! ## Rust `f64::from_str` (`"…".parse::<f64>()`), exactly -/

/-- Value of a digit string read in base 10. -/
def digitsToNat (cs : List Char) : Nat :=
  cs.foldl (fun acc c => acc * 10 + (c.toNat - '0'.toNat)) 0

/-- The rational `10 ^ e` for an integer exponent. -/
def pow10z (e : Int) : ℚ :=
  if 0 ≤ e then ((10 ^ e.toNat : Nat) : ℚ) else (1 : ℚ) / ((10 ^ (-e).toNat : Nat) : ℚ)

/-- Parse the mantissa part of Rust's float grammar:
`Digit+ | Digit+ '.' Digit* | Digit* '.' Digit+`, as an exact rational. -/
def parseMantissa (cs : List Char) : Option ℚ :=
  let ip := cs.takeWhile Char.isDigit
  let rest := cs.dropWhile Char.isDigit
  match rest with
  | [] => if ip.isEmpty then none else some ((digitsToNat ip : Nat) : ℚ)
  | '.' :: fp =>
      if fp.all Char.isDigit && (!ip.isEmpty || !fp.isEmpty) then
        some (((digitsToNat (ip ++ fp) : Nat) : ℚ) / ((10 ^ fp.length : Nat) : ℚ))
      else none
  | _ => none

/-- Parse the exponent part of Rust's float grammar: `Sign? Digit+`. -/
def parseExponent (cs : List Char) : Option Int :=
  let p : Int × List Char :=
    match cs with
    | '+' :: t => (1, t)
    | '-' :: t => (-1, t)
    | t => (1, t)
  if !p.2.isEmpty && p.2.all Char.isDigit then some (p.1 * (digitsToNat p.2 : Int))
  else none

/-- Split a character list at the first `e`/`E`, if any. -/
def splitAtExp (cs : List Char) : List Char × Option (List Char) :=
  match cs.findIdx? (fun c => c == 'e' || c == 'E') with
  | none => (cs, none)
  | some i => (cs.take i, some (cs.drop (i + 1)))

/-- Parse an unsigned decimal number (mantissa and optional exponent) to its
exact rational value. -/
def parsePosNumber (cs : List Char) : Option ℚ :=
  let me := splitAtExp cs
  match parseMantissa me.1 with
  | none => none
  | some q =>
      match me.2 with
      | none => some q
      | some ecs => (parseExponent ecs).map (fun e => q * pow10z e)

/-- Rust's `str::parse::<f64>()`: grammar
`Sign? (inf | infinity | nan | Number)` (keywords case-insensitive), with the
decimal value correctly rounded to the nearest binary64. -/
def parseF64rust (s : String) : Option F64 :=
  let cs := s.toList
  if cs.isEmpty then none
  else
    let p : Bool × List Char :=
      match cs with
      | '+' :: t => (false, t)
      | '-' :: t => (true, t)
      | t => (false, t)
    let low := p.2.map Char.toLower
    if low = "inf".toList || low = "infinity".toList then some (F64.inf (!p.1))
    else if low = "nan".toList then some F64.nan
    else
      match parsePosNumber p.2 with
      | none => none
      | some q => some (roundF64 (if p.1 then -q else q))

/-! ## Base58 decoding and `Pubkey::from_str` -/

/-- The Bitcoin base58 alphabet used by Solana addresses. -/
def b58Alphabet : List Char :=
  "123456789ABCDEFGHJKLMNPQRSTUVWXYZabcdefghijkmnopqrstuvwxyz".toList

/-- Index of a character in the base58 alphabet. -/
def b58Idx (c : Char) : Option Nat := b58Alphabet.findIdx? (fun x => x == c)

/-- Big-endian base-256 digits of a natural number (empty for 0),
fuel-driven so that it reduces in the kernel. -/
def natBytesAux : Nat → Nat → List Nat
  | 0, _ => []
  | fuel + 1, n => if n = 0 then [] else natBytesAux fuel (n / 256) ++ [n % 256]

/-- Big-endian byte representation of a natural number. -/
def natBytes (n : Nat) : List Nat := natBytesAux n n

/-- Decode a base58 string to its byte representation (as `bs58::decode`):
each leading '1' contributes a leading zero byte; the rest is the big-endian
encoding of the base-58 value. -/
def decodeBase58 (s : String) : Option (List Nat) :=
  (s.toList.mapM b58Idx).map fun vs =>
    let n := vs.foldl (fun acc v => acc * 58 + v) 0
    let zeros := (vs.takeWhile (fun v => v == 0)).length
    List.replicate zeros 0 ++ natBytes n

/-- Solana's `Pubkey::from_str`: the string must be at most 44 characters,
decode as base58, and yield exactly 32 bytes. -/
def pubkeyFromStr (s : String) : Option (List Nat) :=
  if s.length > 44 then none
  else
    match decodeBase58 s with
    | none => none
    | some bs => if bs.length = 32 then some bs else none

/-! ## The amount-to-lamports conversion (`send_transaction`, lines 126–132) -/

/-- `LAMPORTS_PER_SOL` from `solana_sdk::native_token`. -/
def LAMPORTS_PER_SOL : Nat := 1000000000

/-- The amount validation/conversion performed by `App::send_transaction`:
`amount.parse::<f64>()` followed by `(amount * LAMPORTS_PER_SOL as f64) as
u64`; `none` is the `Invalid amount` error. -/
def amount_to_lamports (s : String) : Option Nat :=
  (parseF64rust s).map (fun amount => f64ToU64 (F64.mul amount (natToF64 LAMPORTS_PER_SOL)))

/-! ## Data model of the application (`main.rs`) -/

/-- The subset of `crossterm::event::KeyCode` the program inspects; every
other key code falls into `other` (the `_ => {}` arms). -/
inductive KeyCode where
  | char (c : Char)
  | backspace
  | enter
  | esc
  | up
  | down
  | other
deriving DecidableEq, Repr

/-- `enum AppState` (line 47). -/
inductive AppState where
  | Home
  | Wallet
  | Send
  | Receive
  | Transactions
  | Settings
deriving DecidableEq, Repr

/-- `enum SendInputMode` (line 66). -/
inductive SendInputMode where
  | EditingRecipient
  | EditingAmount
  | Confirming
deriving DecidableEq, Repr

/-- `struct SendState` (line 57). -/
structure SendState where
  recipient : String
  amount : String
  input_mode : SendInputMode
  status : Option String
  error : Option String
deriving DecidableEq, Repr

/-- `SendState::default()` (line 73). -/
def SendState.default : SendState :=
  { recipient := "", amount := "", input_mode := SendInputMode.EditingRecipient,
    status := none, error := none }

/-- The signing credential.  Only its derived public identity is observable
by the embedded pipeline; `pubkey` is the deterministic derivation
`Keypair::pubkey()`. -/
structure Keypair where
  pubkey : List Nat
deriving DecidableEq, Repr

/-- `struct WalletInfo` (line 84); the `f64` balance is modelled exactly. -/
structure WalletInfo where
  keypair : Keypair
  address : List Nat
  balance : F64
deriving DecidableEq, Repr

/-- `system_instruction::transfer(from, to, lamports)`: the single transfer
instruction of the payload. -/
inductive Instruction where
  | transfer (from_pubkey to_pubkey : List Nat) (lamports : Nat)
deriving DecidableEq, Repr

/-- The signed transaction produced by `Transaction::new_signed_with_payer`:
instruction list, payer, the pubkeys of the signing keypairs, and the
attached recent blockhash (freshness token). -/
structure Transaction where
  instructions : List Instruction
  payer : Option (List Nat)
  signers : List (List Nat)
  recent_blockhash : Nat
deriving DecidableEq, Repr

/-- Oracle for the RPC client (`solana_client::rpc_client::RpcClient`).
Each method takes the app's RPC call counter as first argument, so distinct
calls in time are distinguishable; blockhashes and signatures are opaque
numbers. -/
structure Gateway where
  get_balance : Nat → List Nat → Except Unit Nat
  get_latest_blockhash : Nat → Except Unit Nat
  send_and_confirm_transaction : Nat → Transaction → Except Unit Nat

/-- `struct App` (line 90).  The `rpc_client` is the `Gateway` oracle passed
to the functions below; `gw_clock` counts the RPC calls made so far (it is
the bookkeeping needed to address the oracle, not a source field). -/
structure App where
  state : AppState
  selected_menu_item : Nat
  wallet : WalletInfo
  send_state : SendState
  last_tx_signature : Option Nat
  gw_clock : Nat
deriving DecidableEq, Repr

/-- `App::new` (line 101) together with the wallet construction in `main`
(lines 224–231): the address is the identity derived from the credential and
the balance starts at `0.0`. -/
def App.new (kp : Keypair) : App :=
  { state := AppState.Home, selected_menu_item := 0,
    wallet := { keypair := kp, address := kp.pubkey, balance := F64.finite 0 },
    send_state := SendState.default, last_tx_signature := none, gw_clock := 0 }

/-- `App::refresh_balance` (line 113): queries the gateway and overwrites the
stored balance with `balance as f64 / LAMPORTS_PER_SOL as f64` on success;
on failure the stored balance is untouched and the error message is the
attached context. -/
def refresh_balance (gw : Gateway) (app : App) : App × Except String Unit :=
  match gw.get_balance app.gw_clock app.wallet.address with
  | Except.error _ =>
      ({ app with gw_clock := app.gw_clock + 1 }, Except.error "Failed to fetch balance")
  | Except.ok balance =>
      ({ app with
          wallet := { app.wallet with
            balance := F64.div (natToF64 balance) (natToF64 LAMPORTS_PER_SOL) },
          gw_clock := app.gw_clock + 1 }, Except.ok ())

/-- Result of `App::send_transaction`: the mutated app, the `Result<()>`,
and (for specification purposes) the payload that was handed to
`send_and_confirm_transaction`, if the pipeline got that far. -/
structure SendTxResult where
  app : App
  result : Except String Unit
  submitted : Option Transaction

/-- `App::send_transaction` (line 122): validate recipient and amount, build
the single transfer instruction, fetch a recent blockhash, build and sign
the transaction with the wallet as payer, submit it, and on success record
the signature, set the status line and fire a best-effort balance refresh. -/
def send_transaction (gw : Gateway) (app : App) : SendTxResult :=
  match pubkeyFromStr app.send_state.recipient with
  | none => ⟨app, Except.error "Invalid recipient address", none⟩
  | some recipient =>
    match parseF64rust app.send_state.amount with
    | none => ⟨app, Except.error "Invalid amount", none⟩
    | some amount =>
      let lamports := f64ToU64 (F64.mul amount (natToF64 LAMPORTS_PER_SOL))
      let transfer_ix := Instruction.transfer app.wallet.address recipient lamports
      match gw.get_latest_blockhash app.gw_clock with
      | Except.error _ =>
          ⟨{ app with gw_clock := app.gw_clock + 1 },
            Except.error "Failed to get recent blockhash", none⟩
      | Except.ok recent_blockhash =>
        let transaction : Transaction :=
          { instructions := [transfer_ix], payer := some app.wallet.address,
            signers := [app.wallet.keypair.pubkey], recent_blockhash := recent_blockhash }
        let app1 := { app with gw_clock := app.gw_clock + 1 }
        match gw.send_and_confirm_transaction app1.gw_clock transaction with
        | Except.error _ =>
            ⟨{ app1 with gw_clock := app1.gw_clock + 1 },
              Except.error "Failed to send transaction", some transaction⟩
        | Except.ok signature =>
          let app2 := { app1 with
            gw_clock := app1.gw_clock + 1,
            last_tx_signature := some signature,
            send_state := { app1.send_state with
              status := some ("Transaction sent: " ++ toString signature) } }
          ⟨(refresh_balance gw app2).1, Except.ok (), some transaction⟩

/-- The app with the `"Sending transaction..."` status line set, as done by
the `'y'` arm of the `Confirming` state just before `send_transaction`. -/
def confirming_app (app : App) : App :=
  { app with send_state := { app.send_state with status := some "Sending transaction..." } }

/-- `handle_send_input` (line 339): one keystroke of the send flow.  The
returned `Except` is the Rust `Result<bool>`: `ok b` is `Ok(b)` (continue
iff `b`), `error e` is the propagated `send_transaction` error. -/
def handle_send_input (gw : Gateway) (app : App) (key : KeyCode) :
    App × Except String Bool :=
  match app.send_state.input_mode with
  | SendInputMode.EditingRecipient =>
    match key with
    | KeyCode.char c =>
        ({ app with send_state := { app.send_state with
            recipient := app.send_state.recipient.push c } }, Except.ok true)
    | KeyCode.backspace =>
        ({ app with send_state := { app.send_state with
            recipient := String.mk app.send_state.recipient.toList.dropLast } },
          Except.ok true)
    | KeyCode.enter =>
        if app.send_state.recipient ≠ "" then
          ({ app with send_state := { app.send_state with
              input_mode := SendInputMode.EditingAmount, error := none } },
            Except.ok true)
        else (app, Except.ok true)
    | KeyCode.esc => (app, Except.ok false)
    | _ => (app, Except.ok true)
  | SendInputMode.EditingAmount =>
    match key with
    | KeyCode.char c =>
        if c.isDigit = true ∨ c = '.' then
          ({ app with send_state := { app.send_state with
              amount := app.send_state.amount.push c } }, Except.ok true)
        else (app, Except.ok true)
    | KeyCode.backspace =>
        ({ app with send_state := { app.send_state with
            amount := String.mk app.send_state.amount.toList.dropLast } },
          Except.ok true)
    | KeyCode.enter =>
        if app.send_state.amount ≠ "" then
          ({ app with send_state := { app.send_state with
              input_mode := SendInputMode.Confirming, error := none } },
            Except.ok true)
        else (app, Except.ok true)
    | KeyCode.esc =>
        ({ app with send_state := { app.send_state with
            input_mode := SendInputMode.EditingRecipient } }, Except.ok true)
    | _ => (app, Except.ok true)
  | SendInputMode.Confirming =>
    match key with
    | KeyCode.char c =>
        if c = 'y' ∨ c = 'Y' then
          let r := send_transaction gw (confirming_app app)
          match r.result with
          | Except.ok _ => (r.app, Except.ok false)
          | Except.error e => (r.app, Except.error e)
        else if c = 'n' ∨ c = 'N' then
          ({ app with send_state := { app.send_state with
              input_mode := SendInputMode.EditingAmount } }, Except.ok true)
        else (app, Except.ok true)
    | KeyCode.esc =>
        ({ app with send_state := { app.send_state with
            input_mode := SendInputMode.EditingAmount } }, Except.ok true)
    | _ => (app, Except.ok true)

/-- One iteration of the `run_app` event loop (line 276) after a key event
arrives: `none` means the loop returned (quit). -/
def run_app_step (gw : Gateway) (app : App) (key : KeyCode) : Option App :=
  if app.state = AppState.Send then
    let r := handle_send_input gw app key
    match r.2 with
    | Except.ok should_continue =>
        if should_continue then some r.1
        else some { r.1 with state := AppState.Wallet, send_state := SendState.default }
    | Except.error e =>
        some { r.1 with send_state := { r.1.send_state with error := some e } }
  else
    match key with
    | KeyCode.char 'q' => none
    | KeyCode.char 'r' =>
        if app.state = AppState.Wallet then some (refresh_balance gw app).1 else some app
    | KeyCode.esc =>
        if app.state = AppState.Receive then some { app with state := AppState.Wallet }
        else some app
    | KeyCode.up =>
        if app.selected_menu_item > 0 then
          some { app with selected_menu_item := app.selected_menu_item - 1 }
        else some app
    | KeyCode.down =>
        if app.selected_menu_item < 5 then
          some { app with selected_menu_item := app.selected_menu_item + 1 }
        else some app
    | KeyCode.enter =>
        match app.selected_menu_item with
        | 0 => some { app with state := AppState.Home }
        | 1 => some { (refresh_balance gw app).1 with state := AppState.Wallet }
        | 2 => some { app with send_state := SendState.default, state := AppState.Send }
        | 3 => some { app with state := AppState.Receive }
        | 4 => some { app with state := AppState.Transactions }
        | 5 => some { app with state := AppState.Settings }
        | _ => some { app with state := AppState.Home }
    | _ => some app

/-- Iterated event loop over a list of key events. -/
def run_app (gw : Gateway) (app : App) : List KeyCode → Option App
  | [] => some app
  | k :: ks => (run_app_step gw app k).bind (fun a => run_app gw a ks)

/-- The state after `main`'s setup: `App::new` followed by the initial
best-effort `refresh_balance` (line 253). -/
def appStart (gw : Gateway) (kp : Keypair) : App :=
  (refresh_balance gw (App.new kp)).1

/-- Reachability: a state the interactive loop can actually be in under a
given gateway oracle. -/
def Reachable (gw : Gateway) (app : App) : Prop :=
  ∃ kp keys, run_app gw (appStart gw kp) keys = some app

/-! ### Concrete fixtures used by witnesses and counterexamples -/

/-- A concrete credential. -/
def kp0 : Keypair := ⟨List.replicate 32 7⟩

/-- A gateway whose every call fails. -/
def gwFail : Gateway :=
  { get_balance := fun _ _ => Except.error ()
    get_latest_blockhash := fun _ => Except.error ()
    send_and_confirm_transaction := fun _ _ => Except.error () }

/-- A gateway whose every call succeeds (fresh blockhash per call). -/
def gwOk : Gateway :=
  { get_balance := fun _ _ => Except.ok 5000000000
    get_latest_blockhash := fun t => Except.ok (100 + t)
    send_and_confirm_transaction := fun _ _ => Except.ok 7 }

/-- A gateway reachable for balance and blockhash whose submission is
rejected by the ledger. -/
def gwReject : Gateway :=
  { get_balance := fun _ _ => Except.ok 5000000000
    get_latest_blockhash := fun t => Except.ok (100 + t)
    send_and_confirm_transaction := fun _ _ => Except.error () }

/-- Field projections of the app after a run, for compact statements. -/
def stateAfter (gw : Gateway) (kp : Keypair) (keys : List KeyCode) : Option AppState :=
  (run_app gw (appStart gw kp) keys).map App.state

/-- Recipient text after a run. -/
def recipientAfter (gw : Gateway) (kp : Keypair) (keys : List KeyCode) : Option String :=
  (run_app gw (appStart gw kp) keys).map (fun a => a.send_state.recipient)

/-- Amount text after a run. -/
def amountAfter (gw : Gateway) (kp : Keypair) (keys : List KeyCode) : Option String :=
  (run_app gw (appStart gw kp) keys).map (fun a => a.send_state.amount)

/-- Input mode after a run. -/
def modeAfter (gw : Gateway) (kp : Keypair) (keys : List KeyCode) : Option SendInputMode :=
  (run_app gw (appStart gw kp) keys).map (fun a => a.send_state.input_mode)

/-- Status field after a run. -/
def statusAfter (gw : Gateway) (kp : Keypair) (keys : List KeyCode) : Option (Option String) :=
  (run_app gw (appStart gw kp) keys).map (fun a => a.send_state.status)

/-- Error field after a run. -/
def errorAfter (gw : Gateway) (kp : Keypair) (keys : List KeyCode) : Option (Option String) :=
  (run_app gw (appStart gw kp) keys).map (fun a => a.send_state.error)

/-- Recorded signature after a run. -/
def sigAfter (gw : Gateway) (kp : Keypair) (keys : List KeyCode) : Option (Option Nat) :=
  (run_app gw (appStart gw kp) keys).map App.last_tx_signature

/-- Keystrokes that enter the send flow from the startup screen. -/
def enterSendKeys : List KeyCode := [KeyCode.down, KeyCode.down, KeyCode.enter]

/-- Type a string character by character. -/
def typeKeys (s : String) : List KeyCode := s.toList.map KeyCode.char

/-! ## Frame and characterization lemmas -/

/-- On a successful balance query, `refresh_balance` overwrites the balance
with the converted fresh value, bumps the call counter and changes nothing
else. -/
theorem refresh_balance_ok (gw : Gateway) (app : App) (n : Nat)
    (h : gw.get_balance app.gw_clock app.wallet.address = Except.ok n) :
    refresh_balance gw app =
      ({ app with
          wallet := { app.wallet with
            balance := F64.div (natToF64 n) (natToF64 LAMPORTS_PER_SOL) },
          gw_clock := app.gw_clock + 1 }, Except.ok ()) := by
  unfold refresh_balance
  rw [h]

/-- On a failed balance query, `refresh_balance` leaves everything but the
call counter unchanged and reports the context message. -/
theorem refresh_balance_err (gw : Gateway) (app : App)
    (h : ∀ n, gw.get_balance app.gw_clock app.wallet.address ≠ Except.ok n) :
    refresh_balance gw app =
      ({ app with gw_clock := app.gw_clock + 1 }, Except.error "Failed to fetch balance") := by
  unfold refresh_balance
  cases hb : gw.get_balance app.gw_clock app.wallet.address with
  | error e => rfl
  | ok n => exact absurd hb (h n)

/-- `refresh_balance` only touches the balance and the call counter. -/
theorem refresh_balance_frame (gw : Gateway) (app : App) :
    (refresh_balance gw app).1.state = app.state ∧
    (refresh_balance gw app).1.selected_menu_item = app.selected_menu_item ∧
    (refresh_balance gw app).1.wallet.keypair = app.wallet.keypair ∧
    (refresh_balance gw app).1.wallet.address = app.wallet.address ∧
    (refresh_balance gw app).1.send_state = app.send_state ∧
    (refresh_balance gw app).1.last_tx_signature = app.last_tx_signature := by
  unfold refresh_balance
  cases hb : gw.get_balance app.gw_clock app.wallet.address <;>
    exact ⟨rfl, rfl, rfl, rfl, rfl, rfl⟩

/-- On any failure, `send_transaction` returns the input app with only the
call counter possibly advanced. -/
theorem send_transaction_err (gw : Gateway) (app : App) (e : String)
    (h : (send_transaction gw app).result = Except.error e) :
    ∃ c, app.gw_clock ≤ c ∧ (send_transaction gw app).app = { app with gw_clock := c } := by
  unfold send_transaction at h ⊢
  cases h1 : pubkeyFromStr app.send_state.recipient with
  | none =>
      simp only [h1]
      exact ⟨app.gw_clock, le_refl _, rfl⟩
  | some toPk =>
    simp only [h1] at h ⊢
    cases h2 : parseF64rust app.send_state.amount with
    | none =>
        simp only [h2]
        exact ⟨app.gw_clock, le_refl _, rfl⟩
    | some amt =>
      simp only [h2] at h ⊢
      cases h3 : gw.get_latest_blockhash app.gw_clock with
      | error u =>
          simp only [h3]
          exact ⟨app.gw_clock + 1, Nat.le_succ _, rfl⟩
      | ok bh =>
        simp only [h3] at h ⊢
        cases h4 : gw.send_and_confirm_transaction (app.gw_clock + 1)
            { instructions := [Instruction.transfer app.wallet.address toPk
                (f64ToU64 (F64.mul amt (natToF64 LAMPORTS_PER_SOL)))],
              payer := some app.wallet.address,
              signers := [app.wallet.keypair.pubkey], recent_blockhash := bh } with
        | error u =>
            simp only [h4]
            exact ⟨app.gw_clock + 1 + 1, by omega, rfl⟩
        | ok sig =>
            simp only [h4] at h
            exact Except.noConfusion h

/-- On success, `send_transaction` records the signature, sets the status
line and finishes with a best-effort balance refresh of the updated app. -/
theorem send_transaction_ok (gw : Gateway) (app : App)
    (h : (send_transaction gw app).result = Except.ok ()) :
    ∃ sig,
      (send_transaction gw app).app =
        (refresh_balance gw
          { app with
              gw_clock := app.gw_clock + 1 + 1,
              last_tx_signature := some sig,
              send_state := { app.send_state with
                status := some ("Transaction sent: " ++ toString sig) } }).1 := by
  unfold send_transaction at h ⊢
  cases h1 : pubkeyFromStr app.send_state.recipient with
  | none =>
      simp only [h1] at h
      exact Except.noConfusion h
  | some toPk =>
    simp only [h1] at h ⊢
    cases h2 : parseF64rust app.send_state.amount with
    | none =>
        simp only [h2] at h
        exact Except.noConfusion h
    | some amt =>
      simp only [h2] at h ⊢
      cases h3 : gw.get_latest_blockhash app.gw_clock with
      | error u =>
          simp only [h3] at h
          exact Except.noConfusion h
      | ok bh =>
        simp only [h3] at h ⊢
        cases h4 : gw.send_and_confirm_transaction (app.gw_clock + 1)
            { instructions := [Instruction.transfer app.wallet.address toPk
                (f64ToU64 (F64.mul amt (natToF64 LAMPORTS_PER_SOL)))],
              payer := some app.wallet.address,
              signers := [app.wallet.keypair.pubkey], recent_blockhash := bh } with
        | error u =>
            simp only [h4] at h
            exact Except.noConfusion h
        | ok sig =>
          simp only [h4]
          exact ⟨sig, rfl⟩

/-- What `send_transaction` hands to the gateway, when it gets that far: the
single transfer instruction for the parsed lamports, payer and single signer
equal to the wallet address, carrying the blockhash fetched in this very
call. -/
theorem send_transaction_submitted (gw : Gateway) (app : App) (tx : Transaction)
    (h : (send_transaction gw app).submitted = some tx) :
    ∃ toPk amt bh,
      pubkeyFromStr app.send_state.recipient = some toPk ∧
      parseF64rust app.send_state.amount = some amt ∧
      gw.get_latest_blockhash app.gw_clock = Except.ok bh ∧
      tx = { instructions := [Instruction.transfer app.wallet.address toPk
                (f64ToU64 (F64.mul amt (natToF64 LAMPORTS_PER_SOL)))],
             payer := some app.wallet.address,
             signers := [app.wallet.keypair.pubkey],
             recent_blockhash := bh } := by
  unfold send_transaction at h
  cases h1 : pubkeyFromStr app.send_state.recipient with
  | none =>
      simp only [h1] at h
      exact Option.noConfusion h
  | some toPk =>
    simp only [h1] at h
    cases h2 : parseF64rust app.send_state.amount with
    | none =>
        simp only [h2] at h
        exact Option.noConfusion h
    | some amt =>
      simp only [h2] at h
      cases h3 : gw.get_latest_blockhash app.gw_clock with
      | error u =>
          simp only [h3] at h
          exact Option.noConfusion h
      | ok bh =>
        simp only [h3] at h
        cases h4 : gw.send_and_confirm_transaction (app.gw_clock + 1)
            { instructions := [Instruction.transfer app.wallet.address toPk
                (f64ToU64 (F64.mul amt (natToF64 LAMPORTS_PER_SOL)))],
              payer := some app.wallet.address,
              signers := [app.wallet.keypair.pubkey], recent_blockhash := bh } with
        | error u =>
            simp only [h4, Option.some.injEq] at h
            exact ⟨toPk, amt, bh, rfl, rfl, rfl, h.symm⟩
        | ok sig =>
            simp only [h4, Option.some.injEq] at h
            exact ⟨toPk, amt, bh, rfl, rfl, rfl, h.symm⟩

/-- `send_transaction` never touches the recipient text, the amount text,
the input mode, the error field, the app state, or the wallet identity. -/
theorem send_transaction_const (gw : Gateway) (app : App) :
    (send_transaction gw app).app.send_state.recipient = app.send_state.recipient ∧
    (send_transaction gw app).app.send_state.amount = app.send_state.amount ∧
    (send_transaction gw app).app.send_state.input_mode = app.send_state.input_mode ∧
    (send_transaction gw app).app.send_state.error = app.send_state.error ∧
    (send_transaction gw app).app.state = app.state ∧
    (send_transaction gw app).app.wallet.keypair = app.wallet.keypair ∧
    (send_transaction gw app).app.wallet.address = app.wallet.address := by
  unfold send_transaction
  split
  · exact ⟨rfl, rfl, rfl, rfl, rfl, rfl, rfl⟩
  · split
    · exact ⟨rfl, rfl, rfl, rfl, rfl, rfl, rfl⟩
    · split
      · exact ⟨rfl, rfl, rfl, rfl, rfl, rfl, rfl⟩
      · dsimp only
        split
        · exact ⟨rfl, rfl, rfl, rfl, rfl, rfl, rfl⟩
        · refine ⟨?_, ?_, ?_, ?_, ?_, ?_, ?_⟩ <;>
            simp [refresh_balance_frame]

/-- `handle_send_input` never changes `app.state` (leaving the flow is done
by its caller in `run_app`). -/
theorem handle_send_input_state (gw : Gateway) (app : App) (key : KeyCode) :
    (handle_send_input gw app key).1.state = app.state := by
  unfold handle_send_input
  cases app.send_state.input_mode <;> cases key <;> dsimp only <;>
    first
    | rfl
    | (split <;>
        first
        | rfl
        | (split <;>
            first
            | rfl
            | exact (send_transaction_const gw (confirming_app app)).2.2.2.2.1))

/-! ## Concrete keystroke traces -/

/-- Enter the send flow, type the invalid recipient `"abc"`, accept it, type
amount `"1"`, accept it: the app sits at the confirmation stage. -/
def keysConfirmBad : List KeyCode :=
  enterSendKeys ++ typeKeys "abc" ++ [KeyCode.enter] ++ typeKeys "1" ++ [KeyCode.enter]

/-- The confirmation-stage state reached by `keysConfirmBad`. -/
def appConfirmBad : App :=
  (run_app gwFail (appStart gwFail kp0) keysConfirmBad).getD (App.new kp0)

/-- `keysConfirmBad` followed by the confirmation key. -/
def c1keys : List KeyCode := keysConfirmBad ++ [KeyCode.char 'y']

/-- Enter the send flow and accept the invalid recipient `"abc"`. -/
def c2keys : List KeyCode := enterSendKeys ++ typeKeys "abc" ++ [KeyCode.enter]

/-- Enter the send flow, accept recipient `"a"`, then type two decimal
separators into the amount field. -/
def c4keys : List KeyCode :=
  enterSendKeys ++ typeKeys "a" ++ [KeyCode.enter] ++ typeKeys ".."

/-- Like `c1keys` with recipient `"xyz"` and amount `"2"`. -/
def c5keys : List KeyCode :=
  enterSendKeys ++ typeKeys "xyz" ++ [KeyCode.enter] ++ typeKeys "2" ++
    [KeyCode.enter, KeyCode.char 'y']

/-- A syntactically valid recipient (the all-zero canonical address). -/
def validRecipient : String := "11111111111111111111111111111111"

/-- Full send flow with a valid recipient and amount `"2"`, confirmed. -/
def c10keys : List KeyCode :=
  enterSendKeys ++ typeKeys validRecipient ++ [KeyCode.enter] ++ typeKeys "2" ++
    [KeyCode.enter, KeyCode.char 'y']

/-- The confirmation-stage state with the valid recipient and amount
`"0.01"`, reached under the all-ok gateway. -/
def keysConfirmGood : List KeyCode :=
  enterSendKeys ++ typeKeys validRecipient ++ [KeyCode.enter] ++ typeKeys "0.01" ++
    [KeyCode.enter]

/-- The app state reached by `keysConfirmGood` under `gwOk`. -/
def appConfirmGood : App :=
  (run_app gwOk (appStart gwOk kp0) keysConfirmGood).getD (App.new kp0)

/-! ## Claims -/

/-- C1, counterexample.  A keystroke sequence whose final confirmation step
fails (invalid recipient) after pressing `'y'`: contrary to the claim, the
controller is still inside the send flow (`AppState.Send`), the
`TransferRequest` still holds the typed recipient instead of being reset,
and the error is displayed in place. -/
theorem C1_claim_counterexample :
    errorAfter gwFail kp0 c1keys = some (some "Invalid recipient address") ∧
    stateAfter gwFail kp0 c1keys = some AppState.Send ∧
    recipientAfter gwFail kp0 c1keys = some "abc" ∧
    sigAfter gwFail kp0 c1keys = some none := by
  refine ⟨by decide, by decide, by decide, by decide⟩

/-- C2, counterexample.  The recipient text `"abc"` fails canonical-address
decoding, yet pressing the confirm key in `AwaitingRecipient` advances to
`AwaitingAmount`: the stage transition checks only non-emptiness, so the
invalid-recipient error arises later, at the confirmation step. -/
theorem C2_claim_counterexample :
    pubkeyFromStr "abc" = none ∧
    modeAfter gwFail kp0 c2keys = some SendInputMode.EditingAmount ∧
    recipientAfter gwFail kp0 c2keys = some "abc" := by
  refine ⟨by decide, by decide, by decide⟩

/-- C4, counterexample.  Two presses of the separator key in
`AwaitingAmount` produce the amount text `".."`, which contains more than a
single decimal separator. -/
theorem C4_claim_counterexample :
    amountAfter gwFail kp0 c4keys = some ".." ∧ 1 < "..".toList.count '.' := by
  refine ⟨by decide, by decide⟩

/-- C5, counterexample.  After a failed confirmation, the reachable state
has `status = some "Sending transaction..."` and
`error = some "Invalid recipient address"` at the same time: both
`SubmissionOutcome` fields are populated, and the failing step did not clear
the status it had just set. -/
theorem C5_claim_counterexample :
    statusAfter gwFail kp0 c5keys = some (some "Sending transaction...") ∧
    errorAfter gwFail kp0 c5keys = some (some "Invalid recipient address") := by
  refine ⟨by decide, by decide⟩

/-- C10, counterexample.  When the gateway rejects the submission, the
controller does stay at the `Confirming` stage, but not with only the error
field set: the status field still reads `"Sending transaction..."`. -/
theorem C10_claim_counterexample :
    stateAfter gwReject kp0 c10keys = some AppState.Send ∧
    modeAfter gwReject kp0 c10keys = some SendInputMode.Confirming ∧
    errorAfter gwReject kp0 c10keys = some (some "Failed to send transaction") ∧
    statusAfter gwReject kp0 c10keys = some (some "Sending transaction...") := by
  refine ⟨by decide, by decide, by decide, by decide⟩

/-- C8 (confirmed).  In `AwaitingConfirmation`, the "no" key (or cancel)
moves exactly to `AwaitingAmount`: the resulting app is the old one with
only the input mode changed, so recipient and amount text are untouched. -/
theorem C8_confirm_no_returns_to_amount (gw : Gateway) (app : App) (key : KeyCode)
    (hs : app.state = AppState.Send)
    (hm : app.send_state.input_mode = SendInputMode.Confirming)
    (hk : key = KeyCode.char 'n' ∨ key = KeyCode.char 'N' ∨ key = KeyCode.esc) :
    run_app_step gw app key =
      some { app with send_state := { app.send_state with
        input_mode := SendInputMode.EditingAmount } } := by
  unfold run_app_step handle_send_input
  rcases hk with h | h | h <;> subst h <;> simp [hs, hm]

/-- Witness for C8 at a concrete reachable confirmation state. -/
theorem C8_confirm_no_returns_to_amount_witness :
    appConfirmBad.state = AppState.Send ∧
    appConfirmBad.send_state.input_mode = SendInputMode.Confirming ∧
    run_app_step gwFail appConfirmBad KeyCode.esc =
      some { appConfirmBad with send_state := { appConfirmBad.send_state with
        input_mode := SendInputMode.EditingAmount } } :=
  ⟨by decide, by decide,
    C8_confirm_no_returns_to_amount gwFail appConfirmBad KeyCode.esc (by decide) (by decide)
      (Or.inr (Or.inr rfl))⟩

/-- Pressing `'y'` at the confirmation stage when the pipeline fails: the
error is recorded on the app `send_transaction` returned and the loop stays
in the send flow. -/
theorem run_y_err (gw : Gateway) (app : App) (e : String)
    (hs : app.state = AppState.Send)
    (hm : app.send_state.input_mode = SendInputMode.Confirming)
    (hr : (send_transaction gw (confirming_app app)).result = Except.error e) :
    run_app_step gw app (KeyCode.char 'y') =
      some { (send_transaction gw (confirming_app app)).app with
        send_state := { (send_transaction gw (confirming_app app)).app.send_state with
          error := some e } } := by
  unfold run_app_step handle_send_input
  simp [hm, hs, hr]

/-- Pressing `'y'` at the confirmation stage when the pipeline succeeds: the
loop exits to the wallet overview and resets the send state. -/
theorem run_y_ok (gw : Gateway) (app : App)
    (hs : app.state = AppState.Send)
    (hm : app.send_state.input_mode = SendInputMode.Confirming)
    (hr : (send_transaction gw (confirming_app app)).result = Except.ok ()) :
    run_app_step gw app (KeyCode.char 'y') =
      some { (send_transaction gw (confirming_app app)).app with
        state := AppState.Wallet, send_state := SendState.default } := by
  unfold run_app_step handle_send_input
  simp [hm, hs, hr]

/-- C9 (confirmed).  Every step that leaves the send flow resets the
`SendState` to default, and every step that enters the send flow starts it at
the default (empty recipient and amount, `AwaitingRecipient`): nothing of a
previous `TransferRequest` survives an exit/re-entry. -/
theorem C9_send_flow_reset (gw : Gateway) (app : App) (key : KeyCode) (a2 : App)
    (h : run_app_step gw app key = some a2) :
    (app.state = AppState.Send → a2.state ≠ AppState.Send →
      a2.send_state = SendState.default) ∧
    (app.state ≠ AppState.Send → a2.state = AppState.Send →
      a2.send_state = SendState.default) := by
  unfold run_app_step at h
  by_cases hs : app.state = AppState.Send
  · rw [if_pos hs] at h
    dsimp only at h
    repeat' split at h
    all_goals
      first
      | exact Option.noConfusion h
      | (injection h with h2
         subst h2
         refine ⟨fun hx hy => ?_, fun hx hy => ?_⟩ <;>
           simp_all [handle_send_input_state, refresh_balance_frame])
  · rw [if_neg hs] at h
    repeat' split at h
    all_goals
      first
      | exact Option.noConfusion h
      | (injection h with h2
         subst h2
         refine ⟨fun hx hy => ?_, fun hx hy => ?_⟩ <;>
           simp_all [handle_send_input_state, refresh_balance_frame])

/-- The state just after entering the send flow (at `AwaitingRecipient`). -/
def appSendEntry : App :=
  (run_app gwFail (appStart gwFail kp0) enterSendKeys).getD (App.new kp0)

/-- The state after cancelling out of `AwaitingRecipient`. -/
def appExit : App :=
  (run_app_step gwFail appSendEntry KeyCode.esc).getD (App.new kp0)

/-- Witness for C9: cancelling out of the freshly entered send flow lands
outside the flow with the default (empty) send state. -/
theorem C9_send_flow_reset_witness :
    appSendEntry.state = AppState.Send ∧ appExit.state ≠ AppState.Send ∧
    appExit.send_state = SendState.default :=
  ⟨by decide, by decide,
    (C9_send_flow_reset gwFail appSendEntry KeyCode.esc appExit (by decide)).1
      (by decide) (by decide)⟩

/-- C1 (amended).  Pressing `'y'` in the confirmation stage exits the flow
only on success (to the wallet overview, with the send state reset and the
signature recorded); on any error the controller stays inside the send flow
at the confirmation stage with the typed recipient and amount intact, the
error displayed, and no signature recorded. -/
theorem C1_amended_confirm_exit (gw : Gateway) (app : App) (a2 : App)
    (hs : app.state = AppState.Send)
    (hm : app.send_state.input_mode = SendInputMode.Confirming)
    (h : run_app_step gw app (KeyCode.char 'y') = some a2) :
    ((send_transaction gw (confirming_app app)).result = Except.ok () →
      a2.state = AppState.Wallet ∧ a2.send_state = SendState.default ∧
      ∃ sig, a2.last_tx_signature = some sig) ∧
    (∀ e, (send_transaction gw (confirming_app app)).result = Except.error e →
      a2.state = AppState.Send ∧
      a2.send_state.input_mode = SendInputMode.Confirming ∧
      a2.send_state.recipient = app.send_state.recipient ∧
      a2.send_state.amount = app.send_state.amount ∧
      a2.send_state.error = some e ∧
      a2.last_tx_signature = app.last_tx_signature) := by
  constructor
  · intro hr
    rw [run_y_ok gw app hs hm hr] at h
    injection h with h2
    subst h2
    obtain ⟨sig, happ⟩ := send_transaction_ok gw (confirming_app app) hr
    refine ⟨rfl, rfl, sig, ?_⟩
    simp [happ, refresh_balance_frame]
  · intro e hr
    rw [run_y_err gw app e hs hm hr] at h
    injection h with h2
    subst h2
    have hc := send_transaction_const gw (confirming_app app)
    obtain ⟨c, hcle, happ⟩ := send_transaction_err gw (confirming_app app) e hr
    refine ⟨hc.2.2.2.2.1.trans hs, hc.2.2.1.trans hm, hc.1, hc.2.1, rfl, ?_⟩
    rw [happ]
    rfl

/-- The state after `'y'` fails at `appConfirmBad`. -/
def appAfterY : App :=
  (run_app_step gwFail appConfirmBad (KeyCode.char 'y')).getD (App.new kp0)

/-- Witness for the amended C1 at the concrete failing confirmation. -/
theorem C1_amended_confirm_exit_witness :
    appConfirmBad.state = AppState.Send ∧
    appConfirmBad.send_state.input_mode = SendInputMode.Confirming ∧
    (((send_transaction gwFail (confirming_app appConfirmBad)).result = Except.ok () →
        appAfterY.state = AppState.Wallet ∧ appAfterY.send_state = SendState.default ∧
        ∃ sig, appAfterY.last_tx_signature = some sig) ∧
      (∀ e, (send_transaction gwFail (confirming_app appConfirmBad)).result =
          Except.error e →
        appAfterY.state = AppState.Send ∧
        appAfterY.send_state.input_mode = SendInputMode.Confirming ∧
        appAfterY.send_state.recipient = appConfirmBad.send_state.recipient ∧
        appAfterY.send_state.amount = appConfirmBad.send_state.amount ∧
        appAfterY.send_state.error = some e ∧
        appAfterY.last_tx_signature = appConfirmBad.last_tx_signature)) :=
  ⟨by decide, by decide,
    C1_amended_confirm_exit gwFail appConfirmBad appAfterY (by decide) (by decide) (by decide)⟩

/-- C2 (amended).  Pressing confirm in `AwaitingRecipient` advances to
`AwaitingAmount` iff the current text is non-empty — no address validation
happens at this boundary; an invalid recipient is instead rejected at the
final confirmation step, which raises `Invalid recipient address` there. -/
theorem C2_amended_recipient_advance (gw : Gateway) (app : App)
    (hs : app.state = AppState.Send)
    (hm : app.send_state.input_mode = SendInputMode.EditingRecipient) :
    (app.send_state.recipient ≠ "" →
      run_app_step gw app KeyCode.enter =
        some { app with send_state := { app.send_state with
          input_mode := SendInputMode.EditingAmount, error := none } }) ∧
    (app.send_state.recipient = "" →
      run_app_step gw app KeyCode.enter = some app) ∧
    (∀ gw2 app2, app2.state = AppState.Send →
      app2.send_state.input_mode = SendInputMode.Confirming →
      pubkeyFromStr app2.send_state.recipient = none →
      run_app_step gw2 app2 (KeyCode.char 'y') =
        some { app2 with send_state := { app2.send_state with
          status := some "Sending transaction...",
          error := some "Invalid recipient address" } }) := by
  refine ⟨?_, ?_, ?_⟩
  · intro hne
    unfold run_app_step handle_send_input
    simp [hs, hm, hne]
  · intro he
    unfold run_app_step handle_send_input
    simp [hs, hm, he]
  · intro gw2 app2 hs2 hm2 hv
    have hr : (send_transaction gw2 (confirming_app app2)).result =
        Except.error "Invalid recipient address" := by
      unfold send_transaction
      simp [confirming_app, hv]
    have happ : (send_transaction gw2 (confirming_app app2)).app = confirming_app app2 := by
      unfold send_transaction
      simp [confirming_app, hv]
    rw [run_y_err gw2 app2 _ hs2 hm2 hr, happ]
    rfl

/-- The state sitting in `AwaitingRecipient` with the text `"abc"` typed. -/
def appRecipientAbc : App :=
  (run_app gwFail (appStart gwFail kp0) (enterSendKeys ++ typeKeys "abc")).getD (App.new kp0)

/-- Witness for the amended C2: a non-empty (invalid) recipient advances,
and the same recipient is rejected at the confirmation step. -/
theorem C2_amended_recipient_advance_witness :
    appRecipientAbc.send_state.recipient ≠ "" ∧
    run_app_step gwFail appRecipientAbc KeyCode.enter =
      some { appRecipientAbc with send_state := { appRecipientAbc.send_state with
        input_mode := SendInputMode.EditingAmount, error := none } } ∧
    pubkeyFromStr appConfirmBad.send_state.recipient = none ∧
    run_app_step gwFail appConfirmBad (KeyCode.char 'y') =
      some { appConfirmBad with send_state := { appConfirmBad.send_state with
        status := some "Sending transaction...",
        error := some "Invalid recipient address" } } :=
  ⟨by decide,
    (C2_amended_recipient_advance gwFail appRecipientAbc (by decide) (by decide)).1 (by decide),
    by decide,
    (C2_amended_recipient_advance gwFail appRecipientAbc (by decide) (by decide)).2.2
      gwFail appConfirmBad (by decide) (by decide) (by decide)⟩

/-- C5 (amended).  The `{status, error}` pair is not kept mutually
exclusive.  What does hold: the default state has both empty; the two
stage-advance confirms clear the error but never touch the status; a failed
submission sets the error while the status keeps `"Sending transaction..."`
(so both are populated at once); and a successful submission leaves the
flow with both reset via the default send state. -/
theorem C5_amended_outcome_fields :
    (SendState.default.status = none ∧ SendState.default.error = none) ∧
    (∀ gw app, app.state = AppState.Send →
      app.send_state.input_mode = SendInputMode.EditingRecipient →
      app.send_state.recipient ≠ "" →
      ∃ a2, run_app_step gw app KeyCode.enter = some a2 ∧
        a2.send_state.error = none ∧ a2.send_state.status = app.send_state.status) ∧
    (∀ gw app, app.state = AppState.Send →
      app.send_state.input_mode = SendInputMode.EditingAmount →
      app.send_state.amount ≠ "" →
      ∃ a2, run_app_step gw app KeyCode.enter = some a2 ∧
        a2.send_state.error = none ∧ a2.send_state.status = app.send_state.status) ∧
    (∀ gw app e, app.state = AppState.Send →
      app.send_state.input_mode = SendInputMode.Confirming →
      (send_transaction gw (confirming_app app)).result = Except.error e →
      ∃ a2, run_app_step gw app (KeyCode.char 'y') = some a2 ∧
        a2.send_state.error = some e ∧
        a2.send_state.status = some "Sending transaction...") ∧
    (∀ gw app, app.state = AppState.Send →
      app.send_state.input_mode = SendInputMode.Confirming →
      (send_transaction gw (confirming_app app)).result = Except.ok () →
      ∃ a2, run_app_step gw app (KeyCode.char 'y') = some a2 ∧
        a2.send_state.status = none ∧ a2.send_state.error = none) := by
  refine ⟨⟨rfl, rfl⟩, ?_, ?_, ?_, ?_⟩
  · intro gw app hs hm hne
    refine ⟨{ app with send_state := { app.send_state with
      input_mode := SendInputMode.EditingAmount, error := none } }, ?_, rfl, rfl⟩
    unfold run_app_step handle_send_input
    simp [hs, hm, hne]
  · intro gw app hs hm hne
    refine ⟨{ app with send_state := { app.send_state with
      input_mode := SendInputMode.Confirming, error := none } }, ?_, rfl, rfl⟩
    unfold run_app_step handle_send_input
    simp [hs, hm, hne]
  · intro gw app e hs hm hr
    obtain ⟨c, hcle, happ⟩ := send_transaction_err gw (confirming_app app) e hr
    refine ⟨_, run_y_err gw app e hs hm hr, rfl, ?_⟩
    rw [happ]
    rfl
  · intro gw app hs hm hr
    exact ⟨_, run_y_ok gw app hs hm hr, rfl, rfl⟩

/-- Witness for the amended C5 at the concrete failing confirmation: both
outcome fields are populated at once. -/
theorem C5_amended_outcome_fields_witness :
    appConfirmBad.state = AppState.Send ∧
    appConfirmBad.send_state.input_mode = SendInputMode.Confirming ∧
    (send_transaction gwFail (confirming_app appConfirmBad)).result =
      Except.error "Invalid recipient address" ∧
    (∃ a2, run_app_step gwFail appConfirmBad (KeyCode.char 'y') = some a2 ∧
      a2.send_state.error = some "Invalid recipient address" ∧
      a2.send_state.status = some "Sending transaction...") :=
  ⟨by decide, by decide, by decide,
    C5_amended_outcome_fields.2.2.2.1 gwFail appConfirmBad "Invalid recipient address"
      (by decide) (by decide) (by decide)⟩

/-- C10 (amended).  If the submission attempt started by `'y'` fails, the
controller remains in the send flow at the `Confirming` stage, recipient and
amount text unchanged, with the error field set — and the status field still
reading `"Sending transaction..."`.  The call counter never goes backwards,
and a retry runs the whole pipeline afresh: any payload the retry submits
carries the blockhash returned by the fetch made at the retry's own call
counter. -/
theorem C10_amended_error_retry (gw : Gateway) (app : App) (e : String)
    (hs : app.state = AppState.Send)
    (hm : app.send_state.input_mode = SendInputMode.Confirming)
    (hr : (send_transaction gw (confirming_app app)).result = Except.error e) :
    ∃ a2, run_app_step gw app (KeyCode.char 'y') = some a2 ∧
      a2.state = AppState.Send ∧
      a2.send_state.input_mode = SendInputMode.Confirming ∧
      a2.send_state.recipient = app.send_state.recipient ∧
      a2.send_state.amount = app.send_state.amount ∧
      a2.send_state.error = some e ∧
      a2.send_state.status = some "Sending transaction..." ∧
      app.gw_clock ≤ a2.gw_clock ∧
      (∀ tx, (send_transaction gw (confirming_app a2)).submitted = some tx →
        ∃ bh, gw.get_latest_blockhash a2.gw_clock = Except.ok bh ∧
          tx.recent_blockhash = bh) := by
  have hc := send_transaction_const gw (confirming_app app)
  obtain ⟨c, hcle, happ⟩ := send_transaction_err gw (confirming_app app) e hr
  refine ⟨_, run_y_err gw app e hs hm hr,
    hc.2.2.2.2.1.trans hs, hc.2.2.1.trans hm, hc.1, hc.2.1, rfl, ?_, ?_, ?_⟩
  · rw [happ]
    rfl
  · rw [happ]
    exact hcle
  · intro tx htx
    obtain ⟨toPk, amt, bh, h1, h2, h3, h4⟩ :=
      send_transaction_submitted gw (confirming_app _) tx htx
    refine ⟨bh, h3, ?_⟩
    rw [h4]

/-- The confirmation stage under the rejecting gateway: valid recipient,
amount `"2"`. -/
def appConfirmReject : App :=
  (run_app gwReject (appStart gwReject kp0)
    (enterSendKeys ++ typeKeys validRecipient ++ [KeyCode.enter] ++ typeKeys "2" ++
      [KeyCode.enter])).getD (App.new kp0)

/-- Witness for the amended C10 at a concrete ledger-rejected submission. -/
theorem C10_amended_error_retry_witness :
    appConfirmReject.state = AppState.Send ∧
    appConfirmReject.send_state.input_mode = SendInputMode.Confirming ∧
    (send_transaction gwReject (confirming_app appConfirmReject)).result =
      Except.error "Failed to send transaction" ∧
    (∃ a2, run_app_step gwReject appConfirmReject (KeyCode.char 'y') = some a2 ∧
      a2.state = AppState.Send ∧
      a2.send_state.input_mode = SendInputMode.Confirming ∧
      a2.send_state.recipient = appConfirmReject.send_state.recipient ∧
      a2.send_state.amount = appConfirmReject.send_state.amount ∧
      a2.send_state.error = some "Failed to send transaction" ∧
      a2.send_state.status = some "Sending transaction..." ∧
      appConfirmReject.gw_clock ≤ a2.gw_clock ∧
      (∀ tx, (send_transaction gwReject (confirming_app a2)).submitted = some tx →
        ∃ bh, gwReject.get_latest_blockhash a2.gw_clock = Except.ok bh ∧
          tx.recent_blockhash = bh)) :=
  ⟨by decide, by decide, by decide,
    C10_amended_error_retry gwReject appConfirmReject "Failed to send transaction"
      (by decide) (by decide) (by decide)⟩

/-- Invariant carried by every reachable app state: the wallet address is
the identity derived from the credential, and the amount text only ever
holds digits and decimal separators. -/
@[reducible] def AppInv (a : App) : Prop :=
  a.wallet.address = a.wallet.keypair.pubkey ∧
  ∀ c ∈ a.send_state.amount.toList, c.isDigit = true ∨ c = '.'

/-- `refresh_balance` preserves the invariant. -/
theorem refresh_balance_inv (gw : Gateway) (a : App) (hi : AppInv a) :
    AppInv (refresh_balance gw a).1 := by
  have hf := refresh_balance_frame gw a
  constructor
  · rw [hf.2.2.2.1, hf.2.2.1]
    exact hi.1
  · rw [hf.2.2.2.2.1]
    exact hi.2

/-- `handle_send_input` preserves the invariant. -/
theorem handle_send_input_inv (gw : Gateway) (a : App) (k : KeyCode)
    (hi : AppInv a) : AppInv (handle_send_input gw a k).1 := by
  obtain ⟨ha, hd⟩ := hi
  unfold handle_send_input
  cases hm : a.send_state.input_mode <;> cases k <;> dsimp only
  all_goals try exact ⟨ha, hd⟩
  case EditingRecipient.enter => split <;> exact ⟨ha, hd⟩
  case EditingAmount.enter => split <;> exact ⟨ha, hd⟩
  case EditingAmount.char c =>
    split
    · rename_i hcd
      refine ⟨ha, ?_⟩
      intro x hx
      simp only [String.push, String.toList] at hx
      rcases List.mem_append.1 hx with h1 | h1
      · exact hd x h1
      · rw [List.mem_singleton.1 h1]
        exact hcd
    · exact ⟨ha, hd⟩
  case EditingAmount.backspace =>
    refine ⟨ha, ?_⟩
    intro x hx
    exact hd x (List.Sublist.subset (List.dropLast_sublist _) hx)
  case Confirming.char c =>
    split
    · split <;>
        (have hc := send_transaction_const gw (confirming_app a)
         constructor
         · rw [hc.2.2.2.2.2.2, hc.2.2.2.2.2.1]
           exact ha
         · rw [hc.2.1]
           exact hd)
    · split
      · exact ⟨ha, hd⟩
      · exact ⟨ha, hd⟩

/-- A single event-loop step preserves the invariant. -/
theorem run_app_step_inv (gw : Gateway) (a a2 : App) (k : KeyCode)
    (h : run_app_step gw a k = some a2) (hi : AppInv a) : AppInv a2 := by
  unfold run_app_step at h
  by_cases hs : a.state = AppState.Send
  · rw [if_pos hs] at h
    dsimp only at h
    have hh := handle_send_input_inv gw a k hi
    repeat' split at h
    all_goals
      first
      | exact Option.noConfusion h
      | (injection h with h2
         subst h2
         first
         | exact ⟨hh.1, hh.2⟩
         | exact ⟨hh.1, fun x hx => absurd hx (List.not_mem_nil x)⟩)
  · rw [if_neg hs] at h
    repeat' split at h
    all_goals
      first
      | exact Option.noConfusion h
      | (injection h with h2
         subst h2
         first
         | exact ⟨hi.1, hi.2⟩
         | exact ⟨hi.1, fun x hx => absurd hx (List.not_mem_nil x)⟩
         | exact ⟨(refresh_balance_inv gw a hi).1, (refresh_balance_inv gw a hi).2⟩)

/-- The invariant is preserved along any run of the event loop. -/
theorem run_app_inv (gw : Gateway) (ks : List KeyCode) (a a2 : App)
    (h : run_app gw a ks = some a2) (hi : AppInv a) : AppInv a2 := by
  induction ks generalizing a with
  | nil =>
      unfold run_app at h
      injection h with h2
      subst h2
      exact hi
  | cons k ks ih =>
      unfold run_app at h
      cases hstep : run_app_step gw a k with
      | none =>
          rw [hstep] at h
          exact Option.noConfusion h
      | some b =>
          rw [hstep] at h
          exact ih b h (run_app_step_inv gw a b k hstep hi)

/-- The startup state satisfies the invariant. -/
theorem appStart_inv (gw : Gateway) (kp : Keypair) : AppInv (appStart gw kp) :=
  refresh_balance_inv gw (App.new kp)
    ⟨rfl, fun x hx => absurd hx (List.not_mem_nil x)⟩

/-- Every reachable state satisfies the invariant. -/
theorem reachable_inv (gw : Gateway) (a : App) (hr : Reachable gw a) : AppInv a := by
  obtain ⟨kp, ks, h⟩ := hr
  exact run_app_inv gw ks (appStart gw kp) a h (appStart_inv gw kp)

/-- C3, counterexample.  `floor(value * scale)` would be
`floor(2.01 * 10^9) = 2_010_000_000`, but the double-precision pipeline
yields `2_009_999_999` for the parseable non-negative decimal `"2.01"`; and
the parseable (but negative) string `"-1"` does not fail with InvalidAmount,
it saturates to `0` minor units. -/
theorem C3_claim_counterexample :
    ratFloor ((201 / 100 : ℚ) * (1000000000 : ℚ)) = 2010000000 ∧
    amount_to_lamports "2.01" = some 2009999999 ∧
    (2009999999 : Int) ≠ 2010000000 ∧
    amount_to_lamports "-1" = some 0 := by
  refine ⟨by decide, by decide, by decide, by decide⟩

/-- C3 (amended).  Amount validation parses the text with Rust `f64`
semantics and converts by a binary64 multiplication with `10^9` followed by
a saturating integer cast.  It fails (InvalidAmount) exactly for the strings
`f64` parsing rejects; `floor(value * scale)` is obtained when the rounding
is exact (`"1.5"` → `1_500_000_000`, `"0.01"` → `10_000_000`) but not in
general (`"2.01"` → `2_009_999_999`), and parseable strings outside the
non-negative decimals do not fail (`"-1"` → `0`). -/
theorem C3_amended_amount_conversion :
    (∀ s, amount_to_lamports s = none ↔ parseF64rust s = none) ∧
    amount_to_lamports "1.5" = some 1500000000 ∧
    amount_to_lamports "0.01" = some 10000000 ∧
    amount_to_lamports "2.01" = some 2009999999 ∧
    amount_to_lamports "-1" = some 0 ∧
    amount_to_lamports "abc" = none := by
  refine ⟨?_, by decide, by decide, by decide, by decide, by decide⟩
  intro s
  unfold amount_to_lamports
  cases h : parseF64rust s <;> simp [h]

/-- C4 (amended).  In `AwaitingAmount` the edit key appends the typed
character only when it is a digit or the decimal separator (anything else is
ignored), and every reachable amount text consists solely of digits and
separators — but nothing bounds the number of separators, so more than one
`'.'` can accumulate. -/
theorem C4_amended_amount_chars :
    (∀ gw app c, app.state = AppState.Send →
      app.send_state.input_mode = SendInputMode.EditingAmount →
      ∃ a2, run_app_step gw app (KeyCode.char c) = some a2 ∧
        a2.send_state.amount =
          (if c.isDigit = true ∨ c = '.' then app.send_state.amount.push c
           else app.send_state.amount)) ∧
    (∀ gw app, Reachable gw app →
      ∀ c ∈ app.send_state.amount.toList, c.isDigit = true ∨ c = '.') := by
  constructor
  · intro gw app c hs hm
    by_cases hcd : c.isDigit = true ∨ c = '.'
    · refine ⟨{ app with send_state := { app.send_state with
        amount := app.send_state.amount.push c } }, ?_, ?_⟩
      · unfold run_app_step handle_send_input
        simp [hs, hm, hcd]
      · rw [if_pos hcd]
    · refine ⟨app, ?_, ?_⟩
      · unfold run_app_step handle_send_input
        simp [hs, hm, hcd]
      · rw [if_neg hcd]
  · intro gw app hr
    exact (reachable_inv gw app hr).2

/-- The state sitting in `AwaitingAmount` (recipient `"a"` accepted). -/
def appAmountStage : App :=
  (run_app gwFail (appStart gwFail kp0)
    (enterSendKeys ++ typeKeys "a" ++ [KeyCode.enter])).getD (App.new kp0)

/-- Witness for the amended C4 at the concrete amount-entry state. -/
theorem C4_amended_amount_chars_witness :
    appAmountStage.state = AppState.Send ∧
    appAmountStage.send_state.input_mode = SendInputMode.EditingAmount ∧
    (∃ a2, run_app_step gwFail appAmountStage (KeyCode.char '.') = some a2 ∧
      a2.send_state.amount =
        (if ('.'.isDigit = true ∨ '.' = '.') then appAmountStage.send_state.amount.push '.'
         else appAmountStage.send_state.amount)) ∧
    (∀ c ∈ appAmountStage.send_state.amount.toList, c.isDigit = true ∨ c = '.') :=
  ⟨by decide, by decide,
    C4_amended_amount_chars.1 gwFail appAmountStage '.' (by decide) (by decide),
    C4_amended_amount_chars.2 gwFail appAmountStage
      ⟨kp0, enterSendKeys ++ typeKeys "a" ++ [KeyCode.enter], by decide⟩⟩

/-- C6 (confirmed).  Whatever `send_transaction` submits to the gateway from
a reachable state is exactly one transfer instruction moving the parsed
minor units from the credential's derived identity to the validated
recipient; the payer and the single signer are that same identity, and the
payload carries the freshness token fetched by this very call. -/
theorem C6_submitted_payload (gw : Gateway) (app : App) (tx : Transaction)
    (hreach : Reachable gw app)
    (h : (send_transaction gw app).submitted = some tx) :
    ∃ toPk amt bh,
      pubkeyFromStr app.send_state.recipient = some toPk ∧
      parseF64rust app.send_state.amount = some amt ∧
      gw.get_latest_blockhash app.gw_clock = Except.ok bh ∧
      tx = { instructions := [Instruction.transfer app.wallet.keypair.pubkey toPk
                (f64ToU64 (F64.mul amt (natToF64 LAMPORTS_PER_SOL)))],
             payer := some app.wallet.keypair.pubkey,
             signers := [app.wallet.keypair.pubkey],
             recent_blockhash := bh } := by
  obtain ⟨toPk, amt, bh, h1, h2, h3, h4⟩ := send_transaction_submitted gw app tx h
  have ha := (reachable_inv gw app hreach).1
  rw [ha] at h4
  exact ⟨toPk, amt, bh, h1, h2, h3, h4⟩

/-- The payload submitted from the valid confirmation state under `gwOk`. -/
def txGood : Transaction :=
  ((send_transaction gwOk appConfirmGood).submitted).getD
    { instructions := [], payer := none, signers := [], recent_blockhash := 0 }

/-- Witness for C6 at the concrete valid submission. -/
theorem C6_submitted_payload_witness :
    (send_transaction gwOk appConfirmGood).submitted = some txGood ∧
    (∃ toPk amt bh,
      pubkeyFromStr appConfirmGood.send_state.recipient = some toPk ∧
      parseF64rust appConfirmGood.send_state.amount = some amt ∧
      gwOk.get_latest_blockhash appConfirmGood.gw_clock = Except.ok bh ∧
      txGood = { instructions := [Instruction.transfer appConfirmGood.wallet.keypair.pubkey toPk
                    (f64ToU64 (F64.mul amt (natToF64 LAMPORTS_PER_SOL)))],
                 payer := some appConfirmGood.wallet.keypair.pubkey,
                 signers := [appConfirmGood.wallet.keypair.pubkey],
                 recent_blockhash := bh }) :=
  ⟨by decide,
    C6_submitted_payload gwOk appConfirmGood txGood
      ⟨kp0, keysConfirmGood, by decide⟩ (by decide)⟩

/-- C7 (confirmed).  `refresh_balance` overwrites the stored balance with
the freshly queried value on success and leaves it unchanged on failure; the
user-initiated refresh surfaces no error into the send state; and a
successful submission ends in a best-effort refresh, so the post-transfer
balance is the fresh query's value when that query succeeds and the
pre-transfer value otherwise — never a locally computed decrement. -/
theorem C7_refresh_balance :
    (∀ gw app n, gw.get_balance app.gw_clock app.wallet.address = Except.ok n →
      (refresh_balance gw app).1 =
        { app with
            wallet := { app.wallet with
              balance := F64.div (natToF64 n) (natToF64 LAMPORTS_PER_SOL) },
            gw_clock := app.gw_clock + 1 }) ∧
    (∀ gw app, (∀ n, gw.get_balance app.gw_clock app.wallet.address ≠ Except.ok n) →
      (refresh_balance gw app).1 = { app with gw_clock := app.gw_clock + 1 }) ∧
    (∀ gw app, app.state = AppState.Wallet →
      run_app_step gw app (KeyCode.char 'r') = some (refresh_balance gw app).1 ∧
      (refresh_balance gw app).1.send_state = app.send_state) ∧
    (∀ gw app, (send_transaction gw app).result = Except.ok () →
      (send_transaction gw app).app.wallet.balance =
        (match gw.get_balance (app.gw_clock + 1 + 1) app.wallet.address with
         | Except.ok n => F64.div (natToF64 n) (natToF64 LAMPORTS_PER_SOL)
         | Except.error _ => app.wallet.balance)) := by
  refine ⟨?_, ?_, ?_, ?_⟩
  · intro gw app n h
    rw [refresh_balance_ok gw app n h]
  · intro gw app h
    rw [refresh_balance_err gw app h]
  · intro gw app hw
    constructor
    · unfold run_app_step
      simp [hw]
    · exact (refresh_balance_frame gw app).2.2.2.2.1
  · intro gw app hok
    obtain ⟨sig, happ⟩ := send_transaction_ok gw app hok
    rw [happ]
    cases hb : gw.get_balance (app.gw_clock + 1 + 1) app.wallet.address with
    | ok n =>
        rw [refresh_balance_ok gw _ n hb]
    | error u =>
        rw [refresh_balance_err gw _ (fun n hn => by
          rw [hb] at hn
          exact Except.noConfusion hn)]

/-- Witness for C7: a successful refresh at startup, and the post-success
balance of the end-to-end submission equals the fresh query's value. -/
theorem C7_refresh_balance_witness :
    gwOk.get_balance (App.new kp0).gw_clock (App.new kp0).wallet.address =
      Except.ok 5000000000 ∧
    (refresh_balance gwOk (App.new kp0)).1 =
      { App.new kp0 with
          wallet := { (App.new kp0).wallet with
            balance := F64.div (natToF64 5000000000) (natToF64 LAMPORTS_PER_SOL) },
          gw_clock := (App.new kp0).gw_clock + 1 } ∧
    (send_transaction gwOk appConfirmGood).result = Except.ok () ∧
    (send_transaction gwOk appConfirmGood).app.wallet.balance =
      (match gwOk.get_balance (appConfirmGood.gw_clock + 1 + 1)
          appConfirmGood.wallet.address with
       | Except.ok n => F64.div (natToF64 n) (natToF64 LAMPORTS_PER_SOL)
       | Except.error _ => appConfirmGood.wallet.balance) :=
  ⟨rfl, C7_refresh_balance.1 gwOk (App.new kp0) 5000000000 rfl,
    by decide, C7_refresh_balance.2.2.2 gwOk appConfirmGood (by decide)⟩
